import Mathlib

/-!
Debug-trigger module: the hart-context selector and the trigger variants.

A shallow embedding of `riscv/triggers.h`.  C++ `unsigned` is a natural number
below `2 ^ 32`; `reg_t` is a natural number.  A failed `assert` and a
`std::optional::value()` on an empty optional are faults (`Except.error`).
-/

namespace triggers

/-! ## Enumerations -/

inductive operation_t where
  | OPERATION_EXECUTE
  | OPERATION_STORE
  | OPERATION_LOAD
  deriving DecidableEq, Repr

/-- The actions; `ACTION_MAXVAL` is an alias of `ACTION_TRACE_EMIT`. -/
inductive action_t where
  | ACTION_DEBUG_EXCEPTION
  | ACTION_DEBUG_MODE
  | ACTION_TRACE_START
  | ACTION_TRACE_STOP
  | ACTION_TRACE_EMIT
  deriving DecidableEq, Repr

inductive timing_t where
  | TIMING_BEFORE
  | TIMING_AFTER
  deriving DecidableEq, Repr

/-- The scope selector; `SSELECT_MAXVAL` is an alias of `SSELECT_ASID`. -/
inductive sselect_t where
  | SSELECT_IGNORE
  | SSELECT_SCONTEXT
  | SSELECT_ASID
  deriving DecidableEq, Repr

inductive mhselect_mode_t where
  | MHSELECT_MODE_IGNORE
  | MHSELECT_MODE_MCONTEXT
  | MHSELECT_MODE_VMID
  deriving DecidableEq, Repr

structure match_result_t where
  timing : timing_t := timing_t.TIMING_BEFORE
  action : action_t := action_t.ACTION_DEBUG_EXCEPTION
  deriving DecidableEq, Repr

/-- The ways a call can abort instead of returning. -/
inductive fault where
  | assert_mhselect_lt_8
  | assert_legal_lt_8
  | bad_optional_access
  deriving DecidableEq, Repr

deriving instance DecidableEq for Except

/-- Width of C++ `unsigned`. -/
def UNSIGNED_BITS : Nat := 32

/-! ## The hart-context selector -/

/-- The private struct `trigger_t::mhselect_interpretation`. -/
structure mhselect_interpretation where
  mhselect : Nat
  mode : mhselect_mode_t
  shift_mhvalue : Option Bool
  deriving DecidableEq, Repr

/-- The member `compare_val`:
`shift_mhvalue.value() ? (mhvalue << 1 | mhselect >> 2) : mhvalue`, where
`value()` faults on an empty optional and the shift wraps at the width of
`unsigned`. -/
def mhselect_interpretation.compare_val (self : mhselect_interpretation) (mhvalue : Nat) :
    Except fault Nat :=
  match self.shift_mhvalue with
  | none => Except.error fault.bad_optional_access
  | some true =>
      Except.ok ((((mhvalue <<< 1) % 2 ^ UNSIGNED_BITS) ||| (self.mhselect >>> 2)) % 2 ^ UNSIGNED_BITS)
  | some false => Except.ok mhvalue

/-- The static array `warlize_if_h[8]` (3 and 7 downgrade). -/
def warlize_if_h : Fin 8 → Nat := ![0, 1, 2, 0, 4, 5, 6, 4]

/-- The static array `warlize_no_h[8]` (only 0 and 4 legal). -/
def warlize_no_h : Fin 8 → Nat := ![0, 0, 0, 0, 4, 4, 4, 4]

/-- The static array `table[8]` of optional interpretations. -/
def table : Fin 8 → Option mhselect_interpretation :=
  ![some ⟨0, mhselect_mode_t.MHSELECT_MODE_IGNORE, none⟩,
    some ⟨1, mhselect_mode_t.MHSELECT_MODE_MCONTEXT, some true⟩,
    some ⟨2, mhselect_mode_t.MHSELECT_MODE_VMID, some true⟩,
    none,
    some ⟨4, mhselect_mode_t.MHSELECT_MODE_MCONTEXT, some false⟩,
    some ⟨5, mhselect_mode_t.MHSELECT_MODE_MCONTEXT, some true⟩,
    some ⟨6, mhselect_mode_t.MHSELECT_MODE_VMID, some true⟩,
    none]

/-- The fields of the base class `trigger_t`. -/
structure trigger_t where
  tdata2 : Nat
  vs : Bool := false
  vu : Bool := false
  m : Bool := false
  s : Bool := false
  u : Bool := false
  sselect : sselect_t
  svalue : Nat
  sbytemask : Nat
  mhselect : Nat
  mhvalue : Nat
  deriving DecidableEq, Repr

/-- The expression initialising the local `legal` of `interpret_mhselect`:
`h_enabled ? warlize_if_h[mhselect] : warlize_no_h[mhselect]`, for an index
inside the arrays. -/
def legalize (h_enabled : Bool) (mhselect : Fin 8) : Nat :=
  if h_enabled then warlize_if_h mhselect else warlize_no_h mhselect

/-- The member `trigger_t::interpret_mhselect`: assert the stored selector is
below 8, legalize it through the table of the hypervisor setting, assert the
legal code is below 8, return the value of the table entry. -/
def trigger_t.interpret_mhselect (self : trigger_t) (h_enabled : Bool) :
    Except fault mhselect_interpretation :=
  if h : self.mhselect < 8 then
    let legal := legalize h_enabled ⟨self.mhselect, h⟩
    if h2 : legal < 8 then
      match table ⟨legal, h2⟩ with
      | some i => Except.ok i
      | none => Except.error fault.bad_optional_access
    else Except.error fault.assert_legal_lt_8
  else Except.error fault.assert_mhselect_lt_8

/-- A trigger whose stored selector is `sel`, the other fields zeroed. -/
def trigger_t.with_mhselect (sel : Nat) : trigger_t :=
  { tdata2 := 0, sselect := sselect_t.SSELECT_IGNORE, svalue := 0, sbytemask := 0,
    mhselect := sel, mhvalue := 0 }

/-! ## The trigger variants -/

/-- The class `disabled_trigger_t`: the base fields and `dmode`. -/
structure disabled_trigger_t extends trigger_t where
  dmode : Bool
  deriving DecidableEq, Repr

/-- The class `trap_common_t`: the base fields, `dmode`, `hit` and `action`. -/
structure trap_common_t extends trigger_t where
  dmode : Bool
  hit : Bool
  action : action_t
  deriving DecidableEq, Repr

/-- The class `itrigger_t`: a `trap_common_t` with the flag `nmi`. -/
structure itrigger_t extends trap_common_t where
  nmi : Bool
  deriving DecidableEq, Repr

/-- The class `etrigger_t`: a `trap_common_t` with no further field. -/
structure etrigger_t extends trap_common_t
  deriving DecidableEq, Repr

/-- The enumeration `mcontrol_common_t::match_t`. -/
inductive match_t where
  | MATCH_EQUAL
  | MATCH_NAPOT
  | MATCH_GE
  | MATCH_LT
  | MATCH_MASK_LOW
  | MATCH_MASK_HIGH
  deriving DecidableEq, Repr

/-- The class `mcontrol_common_t` with its default member initializers; the
field `match` is spelled `match_`. -/
structure mcontrol_common_t extends trigger_t where
  dmode : Bool := false
  action : action_t := action_t.ACTION_DEBUG_EXCEPTION
  hit : Bool := false
  select : Bool := false
  timing : Bool := false
  chain : Bool := false
  match_ : match_t := match_t.MATCH_EQUAL
  execute : Bool := false
  store : Bool := false
  load : Bool := false
  deriving DecidableEq, Repr

/-- The class `mcontrol_t`: a `mcontrol_common_t` with no further field. -/
structure mcontrol_t extends mcontrol_common_t
  deriving DecidableEq, Repr

/-- The class `mcontrol6_t`: a `mcontrol_common_t` with no further field. -/
structure mcontrol6_t extends mcontrol_common_t
  deriving DecidableEq, Repr

/-! ### Virtual members defined in the base class -/

def trigger_t.get_chain (_self : trigger_t) : Bool := false

def trigger_t.get_execute (_self : trigger_t) : Bool := false

def trigger_t.get_store (_self : trigger_t) : Bool := false

def trigger_t.get_load (_self : trigger_t) : Bool := false

def trigger_t.get_action (_self : trigger_t) : action_t := action_t.ACTION_DEBUG_EXCEPTION

/-- The base `detect_memory_access_match`: every argument is unused and the
result is `std::nullopt`. -/
def trigger_t.detect_memory_access_match {P : Type} (_self : trigger_t) (_proc : P)
    (_operation : operation_t) (_address : Nat) (_data : Option Nat) : Option match_result_t :=
  none

/-- The base `detect_trap_match`: every argument is unused and the result is
`std::nullopt`. -/
def trigger_t.detect_trap_match {P Trap : Type} (_self : trigger_t) (_proc : P) (_t : Trap) :
    Option match_result_t :=
  none

/-! ### Overrides defined in the header -/

def disabled_trigger_t.get_dmode (self : disabled_trigger_t) : Bool := self.dmode

def trap_common_t.get_dmode (self : trap_common_t) : Bool := self.dmode

def itrigger_t.get_action (self : itrigger_t) : action_t := self.action

def etrigger_t.get_action (self : etrigger_t) : action_t := self.action

def mcontrol_common_t.get_dmode (self : mcontrol_common_t) : Bool := self.dmode

def mcontrol_common_t.get_chain (self : mcontrol_common_t) : Bool := self.chain

def mcontrol_common_t.get_execute (self : mcontrol_common_t) : Bool := self.execute

def mcontrol_common_t.get_store (self : mcontrol_common_t) : Bool := self.store

def mcontrol_common_t.get_load (self : mcontrol_common_t) : Bool := self.load

def mcontrol_common_t.get_action (self : mcontrol_common_t) : action_t := self.action

/-- The overrides the header only declares.  Their bodies live outside the
header, so they are parameters: each maps the object, the processor and the
arguments to the returned value, the updated object and the updated processor. -/
structure out_of_line (P Trap : Type) where
  itrigger_t_detect_trap_match :
    itrigger_t → P → Trap → Option match_result_t × itrigger_t × P
  etrigger_t_detect_trap_match :
    etrigger_t → P → Trap → Option match_result_t × etrigger_t × P
  mcontrol_common_t_detect_memory_access_match :
    mcontrol_common_t → P → operation_t → Nat → Option Nat →
      Option match_result_t × mcontrol_common_t × P

/-- An object behind a `trigger_t *`: one of the five concrete classes. -/
inductive trigger_variant where
  | disabled (self : disabled_trigger_t)
  | itrigger (self : itrigger_t)
  | etrigger (self : etrigger_t)
  | mcontrol (self : mcontrol_t)
  | mcontrol6 (self : mcontrol6_t)
  deriving DecidableEq, Repr

/-! ### Virtual dispatch: the most derived definition of each member -/

def trigger_variant.get_dmode : trigger_variant → Bool
  | .disabled d => d.get_dmode
  | .itrigger i => i.totrap_common_t.get_dmode
  | .etrigger e => e.totrap_common_t.get_dmode
  | .mcontrol c => c.tomcontrol_common_t.get_dmode
  | .mcontrol6 c => c.tomcontrol_common_t.get_dmode

def trigger_variant.get_chain : trigger_variant → Bool
  | .disabled d => d.totrigger_t.get_chain
  | .itrigger i => i.totrigger_t.get_chain
  | .etrigger e => e.totrigger_t.get_chain
  | .mcontrol c => c.tomcontrol_common_t.get_chain
  | .mcontrol6 c => c.tomcontrol_common_t.get_chain

def trigger_variant.get_execute : trigger_variant → Bool
  | .disabled d => d.totrigger_t.get_execute
  | .itrigger i => i.totrigger_t.get_execute
  | .etrigger e => e.totrigger_t.get_execute
  | .mcontrol c => c.tomcontrol_common_t.get_execute
  | .mcontrol6 c => c.tomcontrol_common_t.get_execute

def trigger_variant.get_store : trigger_variant → Bool
  | .disabled d => d.totrigger_t.get_store
  | .itrigger i => i.totrigger_t.get_store
  | .etrigger e => e.totrigger_t.get_store
  | .mcontrol c => c.tomcontrol_common_t.get_store
  | .mcontrol6 c => c.tomcontrol_common_t.get_store

def trigger_variant.get_load : trigger_variant → Bool
  | .disabled d => d.totrigger_t.get_load
  | .itrigger i => i.totrigger_t.get_load
  | .etrigger e => e.totrigger_t.get_load
  | .mcontrol c => c.tomcontrol_common_t.get_load
  | .mcontrol6 c => c.tomcontrol_common_t.get_load

def trigger_variant.get_action : trigger_variant → action_t
  | .disabled d => d.totrigger_t.get_action
  | .itrigger i => i.get_action
  | .etrigger e => e.get_action
  | .mcontrol c => c.tomcontrol_common_t.get_action
  | .mcontrol6 c => c.tomcontrol_common_t.get_action

/-- The virtual call `detect_memory_access_match`: only `mcontrol_common_t`
overrides it, the other classes run the base definition, which leaves the
object and the processor as they are. -/
def trigger_variant.detect_memory_access_match {P Trap : Type} (impl : out_of_line P Trap)
    (self : trigger_variant) (proc : P) (operation : operation_t) (address : Nat)
    (data : Option Nat) : Option match_result_t × trigger_variant × P :=
  match self with
  | .disabled d =>
      (d.totrigger_t.detect_memory_access_match proc operation address data, .disabled d, proc)
  | .itrigger i =>
      (i.totrigger_t.detect_memory_access_match proc operation address data, .itrigger i, proc)
  | .etrigger e =>
      (e.totrigger_t.detect_memory_access_match proc operation address data, .etrigger e, proc)
  | .mcontrol c =>
      let r := impl.mcontrol_common_t_detect_memory_access_match c.tomcontrol_common_t proc
        operation address data
      (r.1, .mcontrol { tomcontrol_common_t := r.2.1 }, r.2.2)
  | .mcontrol6 c =>
      let r := impl.mcontrol_common_t_detect_memory_access_match c.tomcontrol_common_t proc
        operation address data
      (r.1, .mcontrol6 { tomcontrol_common_t := r.2.1 }, r.2.2)

/-- The virtual call `detect_trap_match`: `itrigger_t` and `etrigger_t`
override it, the other classes run the base definition, which leaves the
object and the processor as they are. -/
def trigger_variant.detect_trap_match {P Trap : Type} (impl : out_of_line P Trap)
    (self : trigger_variant) (proc : P) (t : Trap) :
    Option match_result_t × trigger_variant × P :=
  match self with
  | .disabled d => (d.totrigger_t.detect_trap_match proc t, .disabled d, proc)
  | .itrigger i =>
      let r := impl.itrigger_t_detect_trap_match i proc t
      (r.1, .itrigger r.2.1, r.2.2)
  | .etrigger e =>
      let r := impl.etrigger_t_detect_trap_match e proc t
      (r.1, .etrigger r.2.1, r.2.2)
  | .mcontrol c => (c.totrigger_t.detect_trap_match proc t, .mcontrol c, proc)
  | .mcontrol6 c => (c.totrigger_t.detect_trap_match proc t, .mcontrol6 c, proc)

/-! ### Construction -/

/-- The implicit default constructor of `mcontrol_t`: the header declares no
constructor, so the members with a default member initializer take it and the
base members without one (`tdata2`, `sselect`, `svalue`, `sbytemask`,
`mhselect`, `mhvalue`) are left indeterminate; they are arguments here. -/
def mcontrol_t.construct (tdata2 : Nat) (sselect : sselect_t)
    (svalue sbytemask mhselect mhvalue : Nat) : mcontrol_t :=
  { tdata2 := tdata2, sselect := sselect, svalue := svalue, sbytemask := sbytemask,
    mhselect := mhselect, mhvalue := mhvalue }

/-- The implicit default constructor of `mcontrol6_t`, as for `mcontrol_t`. -/
def mcontrol6_t.construct (tdata2 : Nat) (sselect : sselect_t)
    (svalue sbytemask mhselect mhvalue : Nat) : mcontrol6_t :=
  { tdata2 := tdata2, sselect := sselect, svalue := svalue, sbytemask := sbytemask,
    mhselect := mhselect, mhvalue := mhvalue }

/-! ## Helper lemmas -/

/-- Both legalization arrays hold codes below 8. -/
theorem legalize_lt_8 (h_enabled : Bool) (m : Fin 8) : legalize h_enabled m < 8 := by
  revert h_enabled m
  decide

/-- No legalized code is 3 or 7. -/
theorem legalize_ne_empty (h_enabled : Bool) (m : Fin 8) :
    legalize h_enabled m ≠ 3 ∧ legalize h_enabled m ≠ 7 := by
  revert h_enabled m
  decide

/-- The interpretation reads no field but the stored selector. -/
theorem interpret_mhselect_with_mhselect (t : trigger_t) (h_enabled : Bool) :
    t.interpret_mhselect h_enabled =
      (trigger_t.with_mhselect t.mhselect).interpret_mhselect h_enabled :=
  rfl

/-- Replacing the stored selector by `sel` interprets like the zeroed trigger
that stores `sel`. -/
theorem interpret_mhselect_update (t : trigger_t) (sel : Nat) (h_enabled : Bool) :
    ({ t with mhselect := sel }).interpret_mhselect h_enabled =
      (trigger_t.with_mhselect sel).interpret_mhselect h_enabled :=
  rfl

/-- A left shift by one followed by an or with a single bit is `2 * v + b`,
before and after wrapping at 32 bits. -/
theorem shl1_or_bit (v b : Nat) (hb : b ≤ 1) :
    (((v <<< 1) % 2 ^ 32) ||| b) % 2 ^ 32 = (2 * v + b) % 2 ^ 32 ∧
      ((v <<< 1) ||| b) % 2 ^ 32 = (2 * v + b) % 2 ^ 32 := by
  have hb2 : b < 2 ^ 1 := by omega
  have h1 : v <<< 1 = 2 ^ 1 * v := by rw [Nat.shiftLeft_eq, Nat.mul_comm]
  have h2 : (2 ^ 1 * v) % 2 ^ 32 = 2 ^ 1 * (v % 2 ^ 31) := by omega
  rw [h1, h2, ← Nat.mul_add_lt_is_or hb2, ← Nat.mul_add_lt_is_or hb2]
  constructor <;> omega

/-! ## The claims -/

/-- C1. Legalization idempotence of the hart-context selector: for a stored
selector below 8 and either hypervisor setting, the legalized code is again an
index of the array, legalizing it returns it unchanged, and
`interpret_mhselect` returns the same for a trigger storing the legalized code
as for the trigger storing the raw one. -/
theorem legalize_idempotent (t : trigger_t) (h_enabled : Bool) (ht : t.mhselect < 8) :
    ∃ hl : legalize h_enabled ⟨t.mhselect, ht⟩ < 8,
      legalize h_enabled ⟨legalize h_enabled ⟨t.mhselect, ht⟩, hl⟩ =
          legalize h_enabled ⟨t.mhselect, ht⟩ ∧
        ({ t with mhselect := legalize h_enabled ⟨t.mhselect, ht⟩ }).interpret_mhselect h_enabled =
          t.interpret_mhselect h_enabled := by
  refine ⟨legalize_lt_8 _ _, ?_, ?_⟩
  · generalize t.mhselect = m at ht
    interval_cases m <;> cases h_enabled <;> rfl
  · rw [interpret_mhselect_update, interpret_mhselect_with_mhselect t]
    generalize t.mhselect = m at ht
    interval_cases m <;> cases h_enabled <;> rfl

/-- Witness of C1 at the stored selector 3 with hypervisor support. -/
theorem legalize_idempotent_witness :
    (trigger_t.with_mhselect 3).mhselect < 8 ∧
      ∃ hl : legalize true ⟨(trigger_t.with_mhselect 3).mhselect, by decide⟩ < 8,
        legalize true ⟨legalize true ⟨(trigger_t.with_mhselect 3).mhselect, by decide⟩, hl⟩ =
            legalize true ⟨(trigger_t.with_mhselect 3).mhselect, by decide⟩ ∧
          ({ trigger_t.with_mhselect 3 with
              mhselect := legalize true ⟨(trigger_t.with_mhselect 3).mhselect, by decide⟩ }
            ).interpret_mhselect true =
            (trigger_t.with_mhselect 3).interpret_mhselect true :=
  ⟨by decide, legalize_idempotent (trigger_t.with_mhselect 3) true (by decide)⟩

/-- C2. `interpret_mhselect` is total under its precondition: for a stored
selector below 8 and either hypervisor setting the legalized index is below 8,
it is neither 3 nor 7, which are exactly the empty slots of the table, the
entry at the legalized index is present and the call returns it. -/
theorem interpret_mhselect_total (t : trigger_t) (h_enabled : Bool) (ht : t.mhselect < 8) :
    ∃ hl : legalize h_enabled ⟨t.mhselect, ht⟩ < 8,
      legalize h_enabled ⟨t.mhselect, ht⟩ ≠ 3 ∧ legalize h_enabled ⟨t.mhselect, ht⟩ ≠ 7 ∧
        (∀ k : Fin 8, table k = none ↔ (k = 3 ∨ k = 7)) ∧
        ∃ i, table ⟨legalize h_enabled ⟨t.mhselect, ht⟩, hl⟩ = some i ∧
          t.interpret_mhselect h_enabled = Except.ok i := by
  refine ⟨legalize_lt_8 _ _, (legalize_ne_empty _ _).1, (legalize_ne_empty _ _).2,
    by decide, ?_⟩
  · rw [interpret_mhselect_with_mhselect t]
    generalize t.mhselect = m at ht
    interval_cases m <;> cases h_enabled <;> exact ⟨_, rfl, rfl⟩

/-- Witness of C2 at the stored selector 7 with hypervisor support. -/
theorem interpret_mhselect_total_witness :
    (trigger_t.with_mhselect 7).mhselect < 8 ∧
      ∃ hl : legalize true ⟨(trigger_t.with_mhselect 7).mhselect, by decide⟩ < 8,
        legalize true ⟨(trigger_t.with_mhselect 7).mhselect, by decide⟩ ≠ 3 ∧
          legalize true ⟨(trigger_t.with_mhselect 7).mhselect, by decide⟩ ≠ 7 ∧
          (∀ k : Fin 8, table k = none ↔ (k = 3 ∨ k = 7)) ∧
          ∃ i, table ⟨legalize true ⟨(trigger_t.with_mhselect 7).mhselect, by decide⟩, hl⟩ = some i ∧
            (trigger_t.with_mhselect 7).interpret_mhselect true = Except.ok i :=
  ⟨by decide, interpret_mhselect_total (trigger_t.with_mhselect 7) true (by decide)⟩

/-- C3, as stated, fails: with hypervisor support the raw code 3 legalizes to
0 at distance 3 while the legal code 2 is at distance 1, so the legalized code
is not a nearest legal code; the same happens for 7 with hypervisor support and
for 3 without it. -/
theorem legalize_nearest_fails :
    (legalize true 3 = 0 ∧ legalize true 2 = 2 ∧
        Nat.dist 2 3 < Nat.dist (legalize true 3) 3) ∧
      ¬ (∀ (h_enabled : Bool) (m c : Fin 8), legalize h_enabled c = c.val →
          Nat.dist (legalize h_enabled m) m.val ≤ Nat.dist c.val m.val) := by
  decide

/-- C3, amended. For every raw 3-bit code and either hypervisor setting the
legalized code is a legal code (a fixed point of the legalization), is at most
the raw code, and is the raw code itself or the raw code with its two low bits
cleared; it is a nearest legal code exactly when the raw code is not 3 and is
not 7 under hypervisor support. -/
theorem legalize_downgrades (h_enabled : Bool) (m : Fin 8) :
    (∃ hl : legalize h_enabled m < 8,
        legalize h_enabled ⟨legalize h_enabled m, hl⟩ = legalize h_enabled m) ∧
      legalize h_enabled m ≤ m.val ∧
      (legalize h_enabled m = m.val ∨ legalize h_enabled m = 4 * (m.val / 4)) ∧
      ((∀ c : Fin 8, legalize h_enabled c = c.val →
          Nat.dist (legalize h_enabled m) m.val ≤ Nat.dist c.val m.val) ↔
        ¬ (m = 3 ∨ (h_enabled = true ∧ m = 7))) := by
  revert h_enabled m
  decide

/-- C4. The legalization arrays do what their comments say: with hypervisor
support 3 becomes 0, 7 becomes 4 and every other code is returned unchanged, so
3 and 7 are the only codes changed; without it the legal codes are exactly 0
and 4, every code 0..3 becomes 0 and every code 4..7 becomes 4. -/
theorem warlize_tables (m : Fin 8) :
    legalize true m = warlize_if_h m ∧ legalize false m = warlize_no_h m ∧
      warlize_if_h 3 = 0 ∧ warlize_if_h 7 = 4 ∧
      warlize_if_h m = (if m = 3 then 0 else if m = 7 then 4 else m.val) ∧
      (warlize_if_h m ≠ m.val ↔ (m = 3 ∨ m = 7)) ∧
      (warlize_if_h m = m.val ↔ m ∈ ([0, 1, 2, 4, 5, 6] : List (Fin 8))) ∧
      (warlize_no_h m = m.val ↔ (m = 0 ∨ m = 4)) ∧
      warlize_no_h m = (if m.val ≤ 3 then 0 else 4) := by
  revert m
  decide

/-- C5. The interpretation by hypervisor support, for a stored selector below
8: without hypervisor support the mode is IGNORE for 0..3 and MCONTEXT with
shift flag false for 4..7, never VMID and never shifted; with hypervisor
support it is IGNORE for 0 and 3, VMID shifted for 2 and 6, MCONTEXT shifted
for 1 and 5, MCONTEXT unshifted for 4 and 7. -/
theorem interpret_mhselect_mode (t : trigger_t) (ht : t.mhselect < 8) :
    (∃ i, t.interpret_mhselect false = Except.ok i ∧
        (i.mode, i.shift_mhvalue) =
          (if t.mhselect ≤ 3 then (mhselect_mode_t.MHSELECT_MODE_IGNORE, none)
           else (mhselect_mode_t.MHSELECT_MODE_MCONTEXT, some false)) ∧
        i.mode ≠ mhselect_mode_t.MHSELECT_MODE_VMID ∧ i.shift_mhvalue ≠ some true) ∧
      (∃ i, t.interpret_mhselect true = Except.ok i ∧
        (i.mode, i.shift_mhvalue) =
          (if t.mhselect ∈ [0, 3] then (mhselect_mode_t.MHSELECT_MODE_IGNORE, none)
           else if t.mhselect ∈ [2, 6] then (mhselect_mode_t.MHSELECT_MODE_VMID, some true)
           else if t.mhselect ∈ [1, 5] then (mhselect_mode_t.MHSELECT_MODE_MCONTEXT, some true)
           else (mhselect_mode_t.MHSELECT_MODE_MCONTEXT, some false))) := by
  rw [interpret_mhselect_with_mhselect t false, interpret_mhselect_with_mhselect t true]
  generalize t.mhselect = m at ht
  interval_cases m <;> exact ⟨⟨_, rfl, by decide⟩, ⟨_, rfl, by decide⟩⟩

/-- Witness of C5 at the stored selector 6. -/
theorem interpret_mhselect_mode_witness :
    (trigger_t.with_mhselect 6).mhselect < 8 ∧
      (∃ i, (trigger_t.with_mhselect 6).interpret_mhselect false = Except.ok i ∧
        (i.mode, i.shift_mhvalue) =
          (if (trigger_t.with_mhselect 6).mhselect ≤ 3 then
            (mhselect_mode_t.MHSELECT_MODE_IGNORE, none)
           else (mhselect_mode_t.MHSELECT_MODE_MCONTEXT, some false)) ∧
        i.mode ≠ mhselect_mode_t.MHSELECT_MODE_VMID ∧ i.shift_mhvalue ≠ some true) ∧
      (∃ i, (trigger_t.with_mhselect 6).interpret_mhselect true = Except.ok i ∧
        (i.mode, i.shift_mhvalue) =
          (if (trigger_t.with_mhselect 6).mhselect ∈ [0, 3] then
            (mhselect_mode_t.MHSELECT_MODE_IGNORE, none)
           else if (trigger_t.with_mhselect 6).mhselect ∈ [2, 6] then
            (mhselect_mode_t.MHSELECT_MODE_VMID, some true)
           else if (trigger_t.with_mhselect 6).mhselect ∈ [1, 5] then
            (mhselect_mode_t.MHSELECT_MODE_MCONTEXT, some true)
           else (mhselect_mode_t.MHSELECT_MODE_MCONTEXT, some false))) :=
  ⟨by decide, interpret_mhselect_mode (trigger_t.with_mhselect 6) (by decide)⟩

/-- C6. `compare_val` applies the shift as the interpretation dictates: for an
interpretation over a legalized selector (below 8) whose shift flag is present
and a stored value `v` below `2 ^ 32`, the result is `v` when the flag is
false, and when it is true the result is `((v << 1) | (mhselect >> 2))` modulo
`2 ^ 32`, which is `(2 * v + b)` modulo `2 ^ 32` with `b` bit 2 of the
selector, zero or one. -/
theorem compare_val_shift (i : mhselect_interpretation) (f : Bool) (v : Nat)
    (hsel : i.mhselect < 8) (hf : i.shift_mhvalue = some f) (_hv : v < 2 ^ UNSIGNED_BITS) :
    (f = false → i.compare_val v = Except.ok v) ∧
      (f = true →
        i.compare_val v = Except.ok (((v <<< 1) ||| (i.mhselect >>> 2)) % 2 ^ UNSIGNED_BITS) ∧
        i.compare_val v =
          Except.ok ((2 * v + (if i.mhselect.testBit 2 then 1 else 0)) % 2 ^ UNSIGNED_BITS)) ∧
      (if i.mhselect.testBit 2 then 1 else 0) = i.mhselect >>> 2 ∧ i.mhselect >>> 2 ≤ 1 := by
  obtain ⟨sel, mode, shift⟩ := i
  simp only at hsel hf
  subst hf
  have hb : (if sel.testBit 2 then 1 else 0) = sel >>> 2 ∧ sel >>> 2 ≤ 1 := by
    interval_cases sel <;> decide
  refine ⟨?_, ?_, hb⟩
  · rintro rfl
    rfl
  · rintro rfl
    have h := shl1_or_bit v (sel >>> 2) hb.2
    simp only [mhselect_interpretation.compare_val, UNSIGNED_BITS, hb.1, h.1, h.2, and_self]

/-- Witness of C6 at the table entry of selector 5 and the largest stored value. -/
theorem compare_val_shift_witness :
    (5 < 8 ∧ (some true : Option Bool) = some true ∧ 4294967295 < 2 ^ UNSIGNED_BITS) ∧
      (mhselect_interpretation.mk 5 mhselect_mode_t.MHSELECT_MODE_MCONTEXT (some true)).compare_val
          4294967295 = Except.ok 4294967295 :=
  ⟨by decide,
    ((compare_val_shift ⟨5, mhselect_mode_t.MHSELECT_MODE_MCONTEXT, some true⟩ true 4294967295
      (by decide) rfl (by decide)).2.1 rfl).2.trans (by decide)⟩

/-- C7. The comparison value is defined exactly when the selector kind is not
ignore: for a stored selector below 8 and either hypervisor setting the
returned interpretation has its shift flag absent if and only if its mode is
IGNORE; on every stored value `compare_val` returns a value if and only if the
mode is MCONTEXT or VMID, and faults on the empty optional if and only if the
mode is IGNORE. -/
theorem compare_val_defined_iff (t : trigger_t) (h_enabled : Bool) (ht : t.mhselect < 8) :
    ∃ i, t.interpret_mhselect h_enabled = Except.ok i ∧
      (i.shift_mhvalue = none ↔ i.mode = mhselect_mode_t.MHSELECT_MODE_IGNORE) ∧
      ∀ v : Nat,
        ((∃ r, i.compare_val v = Except.ok r) ↔
          (i.mode = mhselect_mode_t.MHSELECT_MODE_MCONTEXT ∨
            i.mode = mhselect_mode_t.MHSELECT_MODE_VMID)) ∧
        (i.compare_val v = Except.error fault.bad_optional_access ↔
          i.mode = mhselect_mode_t.MHSELECT_MODE_IGNORE) := by
  rw [interpret_mhselect_with_mhselect t]
  generalize t.mhselect = m at ht
  interval_cases m <;> cases h_enabled <;>
    exact ⟨_, rfl, by decide, fun v => by simp [mhselect_interpretation.compare_val]⟩

/-- Witness of C7 at the stored selector 2 with hypervisor support. -/
theorem compare_val_defined_iff_witness :
    (trigger_t.with_mhselect 2).mhselect < 8 ∧
      ∃ i, (trigger_t.with_mhselect 2).interpret_mhselect true = Except.ok i ∧
        (i.shift_mhvalue = none ↔ i.mode = mhselect_mode_t.MHSELECT_MODE_IGNORE) ∧
        ∀ v : Nat,
          ((∃ r, i.compare_val v = Except.ok r) ↔
            (i.mode = mhselect_mode_t.MHSELECT_MODE_MCONTEXT ∨
              i.mode = mhselect_mode_t.MHSELECT_MODE_VMID)) ∧
          (i.compare_val v = Except.error fault.bad_optional_access ↔
            i.mode = mhselect_mode_t.MHSELECT_MODE_IGNORE) :=
  ⟨by decide, compare_val_defined_iff (trigger_t.with_mhselect 2) true (by decide)⟩

/-- C8. A disabled trigger has no match capability: whatever its stored state,
the out-of-line overrides, the processor, the operation, the address, the
optional data and the trap, both detection calls on a `disabled_trigger_t`
return no match and leave the object and the processor unchanged, because the
class runs both base definitions. -/
theorem disabled_never_matches {P Trap : Type} (impl : out_of_line P Trap)
    (d : disabled_trigger_t) (proc : P) (operation : operation_t) (address : Nat)
    (data : Option Nat) (t : Trap) :
    (trigger_variant.disabled d).detect_memory_access_match impl proc operation address data =
        (none, trigger_variant.disabled d, proc) ∧
      (trigger_variant.disabled d).detect_trap_match impl proc t =
        (none, trigger_variant.disabled d, proc) ∧
      d.totrigger_t.detect_memory_access_match proc operation address data = none ∧
      d.totrigger_t.detect_trap_match proc t = none :=
  ⟨rfl, rfl, rfl, rfl⟩

/-- C9. No chaining applies to trap-style triggers: `get_chain` is false on
every `itrigger_t`, every `etrigger_t` and every `disabled_trigger_t`; on a
`mcontrol_t` or `mcontrol6_t` it is the stored `chain` field, so a trigger
reports chain set exactly when it is one of these two with `chain` set. -/
theorem get_chain_by_variant (x : trigger_variant) :
    (∀ i : itrigger_t, (trigger_variant.itrigger i).get_chain = false) ∧
      (∀ e : etrigger_t, (trigger_variant.etrigger e).get_chain = false) ∧
      (∀ d : disabled_trigger_t, (trigger_variant.disabled d).get_chain = false) ∧
      (∀ c : mcontrol_t, (trigger_variant.mcontrol c).get_chain = c.chain) ∧
      (∀ c : mcontrol6_t, (trigger_variant.mcontrol6 c).get_chain = c.chain) ∧
      (x.get_chain = true ↔
        ((∃ c : mcontrol_t, x = trigger_variant.mcontrol c ∧ c.chain = true) ∨
          (∃ c : mcontrol6_t, x = trigger_variant.mcontrol6 c ∧ c.chain = true))) := by
  refine ⟨fun _ => rfl, fun _ => rfl, fun _ => rfl, fun _ => rfl, fun _ => rfl, ?_⟩
  cases x with
  | disabled d => simp [trigger_variant.get_chain, trigger_t.get_chain]
  | itrigger i => simp [trigger_variant.get_chain, trigger_t.get_chain]
  | etrigger e => simp [trigger_variant.get_chain, trigger_t.get_chain]
  | mcontrol c => simp [trigger_variant.get_chain, mcontrol_common_t.get_chain]
  | mcontrol6 c => simp [trigger_variant.get_chain, mcontrol_common_t.get_chain]

/-- C10. The two detection entry points are disjoint across the variant
families: whatever the state, the out-of-line overrides and the input, an
`itrigger_t` or `etrigger_t` returns no match from
`detect_memory_access_match`, unchanged, and reports execute, store and load
disabled; a `mcontrol_t` or `mcontrol6_t` returns no match from
`detect_trap_match`, unchanged. -/
theorem detection_families_disjoint {P Trap : Type} (impl : out_of_line P Trap)
    (i : itrigger_t) (e : etrigger_t) (c : mcontrol_t) (c6 : mcontrol6_t) (proc : P)
    (operation : operation_t) (address : Nat) (data : Option Nat) (t : Trap) :
    ((trigger_variant.itrigger i).detect_memory_access_match impl proc operation address data =
          (none, trigger_variant.itrigger i, proc) ∧
        (trigger_variant.itrigger i).get_execute = false ∧
        (trigger_variant.itrigger i).get_store = false ∧
        (trigger_variant.itrigger i).get_load = false) ∧
      ((trigger_variant.etrigger e).detect_memory_access_match impl proc operation address data =
          (none, trigger_variant.etrigger e, proc) ∧
        (trigger_variant.etrigger e).get_execute = false ∧
        (trigger_variant.etrigger e).get_store = false ∧
        (trigger_variant.etrigger e).get_load = false) ∧
      (trigger_variant.mcontrol c).detect_trap_match impl proc t =
        (none, trigger_variant.mcontrol c, proc) ∧
      (trigger_variant.mcontrol6 c6).detect_trap_match impl proc t =
        (none, trigger_variant.mcontrol6 c6, proc) :=
  ⟨⟨rfl, rfl, rfl, rfl⟩, ⟨rfl, rfl, rfl, rfl⟩, rfl, rfl⟩

/-! ## Further helper lemmas -/

/-- Bit 2 of a code below 8 is the code shifted right by two. -/
theorem shr2_bit (sel : Nat) (hsel : sel < 8) :
    sel >>> 2 ≤ 1 ∧ sel.testBit 2 = decide (sel >>> 2 = 1) := by
  interval_cases sel <;> decide

/-- What `interpret_mhselect` returns under its precondition: the table entry
at the legalized code, whose selector field is that code. -/
theorem interpret_mhselect_entry (t : trigger_t) (h_enabled : Bool) (ht : t.mhselect < 8) :
    ∃ i, t.interpret_mhselect h_enabled = Except.ok i ∧
      i.mhselect = legalize h_enabled ⟨t.mhselect, ht⟩ ∧ i.mhselect < 8 ∧
      table ⟨legalize h_enabled ⟨t.mhselect, ht⟩, legalize_lt_8 _ _⟩ = some i := by
  rw [interpret_mhselect_with_mhselect t]
  generalize t.mhselect = m at ht
  interval_cases m <;> cases h_enabled <;> exact ⟨_, rfl, rfl, by decide, rfl⟩

/-- A returned interpretation has a selector field below 8. -/
theorem interpret_mhselect_ok_lt (t : trigger_t) (h_enabled : Bool)
    (i : mhselect_interpretation) (hi : t.interpret_mhselect h_enabled = Except.ok i) :
    i.mhselect < 8 := by
  by_cases ht : t.mhselect < 8
  · obtain ⟨j, hj, _, hlt, _⟩ := interpret_mhselect_entry t h_enabled ht
    rw [hj] at hi
    cases hi
    exact hlt
  · simp [trigger_t.interpret_mhselect, ht] at hi

/-- A shifted interpretation over a code below 8 returns `2 * v + b` wrapped at
32 bits, `b` being the code shifted right by two. -/
theorem compare_val_shifted (i : mhselect_interpretation) (v : Nat)
    (hs : i.shift_mhvalue = some true) (hsel : i.mhselect < 8) :
    i.compare_val v = Except.ok ((2 * v + i.mhselect >>> 2) % 2 ^ 32) := by
  have h := (shl1_or_bit v (i.mhselect >>> 2) (shr2_bit _ hsel).1).1
  simp only [mhselect_interpretation.compare_val, hs, UNSIGNED_BITS, h]

/-- Legalization never raises a code and keeps its bit 2. -/
theorem legalize_le_shr (h_enabled : Bool) (m : Fin 8) :
    legalize h_enabled m ≤ m.val ∧ legalize h_enabled m >>> 2 = m.val >>> 2 := by
  revert h_enabled m
  decide

/-- Both arrays hold codes below 8. -/
theorem warlize_lt_8 (m : Fin 8) : warlize_if_h m < 8 ∧ warlize_no_h m < 8 := by
  revert m
  decide

/-- Every present entry of the table stores its index as selector. -/
theorem table_selector (k : Fin 8) :
    ((table k).map (fun e => e.mhselect)).getD k.val = k.val := by
  revert k
  decide

/-! ## The claims, continued -/

/-- C11. The shifted comparison value packs the stored value and the borrowed
selector bit without loss: for an interpretation returned by
`interpret_mhselect` whose shift flag is true and a stored value `v` below
`2 ^ 31`, `compare_val` returns a value whose bit 0 is bit 2 of the legalized
selector and whose right shift by one is `v`; and the values returned under
the selectors 1 and 5 (both MCONTEXT) are never equal, nor are those under 2
and 6 (both VMID), whatever the two stored values. -/
theorem compare_val_lossless (t : trigger_t) (h_enabled : Bool) (i : mhselect_interpretation)
    (v : Nat) (hi : t.interpret_mhselect h_enabled = Except.ok i)
    (hs : i.shift_mhvalue = some true) (hv : v < 2 ^ 31) :
    (∃ r, i.compare_val v = Except.ok r ∧ r.testBit 0 = i.mhselect.testBit 2 ∧ r >>> 1 = v) ∧
      ∃ i1 i5 i2 i6,
        ({ t with mhselect := 1 }).interpret_mhselect true = Except.ok i1 ∧
        ({ t with mhselect := 5 }).interpret_mhselect true = Except.ok i5 ∧
        ({ t with mhselect := 2 }).interpret_mhselect true = Except.ok i2 ∧
        ({ t with mhselect := 6 }).interpret_mhselect true = Except.ok i6 ∧
        i1.mode = mhselect_mode_t.MHSELECT_MODE_MCONTEXT ∧
        i5.mode = mhselect_mode_t.MHSELECT_MODE_MCONTEXT ∧
        i2.mode = mhselect_mode_t.MHSELECT_MODE_VMID ∧
        i6.mode = mhselect_mode_t.MHSELECT_MODE_VMID ∧
        ∀ w w' : Nat, i1.compare_val w ≠ i5.compare_val w' ∧
          i2.compare_val w ≠ i6.compare_val w' := by
  have hsel := interpret_mhselect_ok_lt t h_enabled i hi
  obtain ⟨hb, hbit⟩ := shr2_bit i.mhselect hsel
  constructor
  · refine ⟨_, compare_val_shifted i v hs hsel, ?_, ?_⟩
    · rw [Nat.testBit_zero, hbit]
      exact decide_eq_decide.mpr (by omega)
    · rw [Nat.shiftRight_eq_div_pow]
      omega
  · refine ⟨⟨1, mhselect_mode_t.MHSELECT_MODE_MCONTEXT, some true⟩,
      ⟨5, mhselect_mode_t.MHSELECT_MODE_MCONTEXT, some true⟩,
      ⟨2, mhselect_mode_t.MHSELECT_MODE_VMID, some true⟩,
      ⟨6, mhselect_mode_t.MHSELECT_MODE_VMID, some true⟩, rfl, rfl, rfl, rfl, rfl, rfl, rfl, rfl, ?_⟩
    intro w w'
    rw [compare_val_shifted _ w rfl (by decide), compare_val_shifted _ w' rfl (by decide),
      compare_val_shifted _ w rfl (by decide), compare_val_shifted _ w' rfl (by decide)]
    have e1 : (1 : Nat) >>> 2 = 0 := by decide
    have e5 : (5 : Nat) >>> 2 = 1 := by decide
    have e2 : (2 : Nat) >>> 2 = 0 := by decide
    have e6 : (6 : Nat) >>> 2 = 1 := by decide
    simp only [e1, e5, e2, e6]
    constructor <;> intro h <;> injection h with h <;> omega

/-- Witness of C11 at the stored selector 5 with hypervisor support and the
largest stored value below `2 ^ 31`. -/
theorem compare_val_lossless_witness :
    ((trigger_t.with_mhselect 5).interpret_mhselect true =
        Except.ok ⟨5, mhselect_mode_t.MHSELECT_MODE_MCONTEXT, some true⟩ ∧
      (mhselect_interpretation.mk 5 mhselect_mode_t.MHSELECT_MODE_MCONTEXT
        (some true)).shift_mhvalue = some true ∧ 2147483647 < 2 ^ 31) ∧
      ∃ r, (mhselect_interpretation.mk 5 mhselect_mode_t.MHSELECT_MODE_MCONTEXT
          (some true)).compare_val 2147483647 = Except.ok r ∧
        r.testBit 0 = (5 : Nat).testBit 2 ∧ r >>> 1 = 2147483647 :=
  ⟨by decide,
    (compare_val_lossless (trigger_t.with_mhselect 5) true
      ⟨5, mhselect_mode_t.MHSELECT_MODE_MCONTEXT, some true⟩ 2147483647
      (by decide) rfl (by decide)).1⟩

/-- C12. Selector legalization only downgrades and keeps the borrowed bit: for
a stored selector below 8 and either hypervisor setting the legalized code is
at most the stored one and has the same value shifted right by two; the
returned interpretation carries that same bit, and when it is shifted the bit
0 of every value `compare_val` returns is bit 2 of the stored selector. -/
theorem legalize_keeps_borrowed_bit (t : trigger_t) (h_enabled : Bool) (ht : t.mhselect < 8) :
    legalize h_enabled ⟨t.mhselect, ht⟩ ≤ t.mhselect ∧
      legalize h_enabled ⟨t.mhselect, ht⟩ >>> 2 = t.mhselect >>> 2 ∧
      ∃ i, t.interpret_mhselect h_enabled = Except.ok i ∧
        i.mhselect >>> 2 = t.mhselect >>> 2 ∧
        (i.shift_mhvalue = some true →
          ∀ v : Nat, ∃ r, i.compare_val v = Except.ok r ∧
            r.testBit 0 = t.mhselect.testBit 2) := by
  obtain ⟨hle, hshr⟩ := legalize_le_shr h_enabled ⟨t.mhselect, ht⟩
  obtain ⟨i, hi, hcode, hlt, _⟩ := interpret_mhselect_entry t h_enabled ht
  have hbit : i.mhselect >>> 2 = t.mhselect >>> 2 := by rw [hcode]; exact hshr
  refine ⟨hle, hshr, i, hi, hbit, fun hs v => ⟨_, compare_val_shifted i v hs hlt, ?_⟩⟩
  obtain ⟨hb, htest⟩ := shr2_bit t.mhselect ht
  rw [Nat.testBit_zero, htest, hbit]
  exact decide_eq_decide.mpr (by omega)

/-- Witness of C12 at the stored selector 7 with hypervisor support. -/
theorem legalize_keeps_borrowed_bit_witness :
    (trigger_t.with_mhselect 7).mhselect < 8 ∧
      legalize true ⟨(trigger_t.with_mhselect 7).mhselect, by decide⟩ ≤
        (trigger_t.with_mhselect 7).mhselect ∧
      legalize true ⟨(trigger_t.with_mhselect 7).mhselect, by decide⟩ >>> 2 =
        (trigger_t.with_mhselect 7).mhselect >>> 2 ∧
      ∃ i, (trigger_t.with_mhselect 7).interpret_mhselect true = Except.ok i ∧
        i.mhselect >>> 2 = (trigger_t.with_mhselect 7).mhselect >>> 2 ∧
        (i.shift_mhvalue = some true →
          ∀ v : Nat, ∃ r, i.compare_val v = Except.ok r ∧
            r.testBit 0 = (trigger_t.with_mhselect 7).mhselect.testBit 2) :=
  ⟨by decide, legalize_keeps_borrowed_bit (trigger_t.with_mhselect 7) true (by decide)⟩

/-- C13. Legalizing without hypervisor support absorbs legalizing with it: for
a stored selector below 8, `warlize_no_h` after `warlize_if_h` and
`warlize_if_h` after `warlize_no_h` both equal `warlize_no_h`; so a trigger
storing the code legalized with hypervisor support is interpreted without it
exactly as the trigger storing the raw code, and both calls return. -/
theorem warlize_no_h_absorbs (t : trigger_t) (ht : t.mhselect < 8) :
    ∃ (h1 : warlize_if_h ⟨t.mhselect, ht⟩ < 8) (h2 : warlize_no_h ⟨t.mhselect, ht⟩ < 8),
      warlize_no_h ⟨warlize_if_h ⟨t.mhselect, ht⟩, h1⟩ = warlize_no_h ⟨t.mhselect, ht⟩ ∧
        warlize_if_h ⟨warlize_no_h ⟨t.mhselect, ht⟩, h2⟩ = warlize_no_h ⟨t.mhselect, ht⟩ ∧
        ∃ i, t.interpret_mhselect false = Except.ok i ∧
          ({ t with mhselect := legalize true ⟨t.mhselect, ht⟩ }).interpret_mhselect false =
            Except.ok i := by
  refine ⟨warlize_lt_8 _ |>.1, warlize_lt_8 _ |>.2, ?_, ?_, ?_⟩
  · generalize t.mhselect = m at ht
    interval_cases m <;> rfl
  · generalize t.mhselect = m at ht
    interval_cases m <;> rfl
  · rw [interpret_mhselect_update t (legalize true ⟨t.mhselect, ht⟩) false,
      interpret_mhselect_with_mhselect t]
    generalize t.mhselect = m at ht
    interval_cases m <;> exact ⟨_, rfl, rfl⟩

/-- Witness of C13 at the stored selector 6. -/
theorem warlize_no_h_absorbs_witness :
    (trigger_t.with_mhselect 6).mhselect < 8 ∧
      ∃ (h1 : warlize_if_h ⟨(trigger_t.with_mhselect 6).mhselect, by decide⟩ < 8)
        (h2 : warlize_no_h ⟨(trigger_t.with_mhselect 6).mhselect, by decide⟩ < 8),
        warlize_no_h ⟨warlize_if_h ⟨(trigger_t.with_mhselect 6).mhselect, by decide⟩, h1⟩ =
            warlize_no_h ⟨(trigger_t.with_mhselect 6).mhselect, by decide⟩ ∧
          warlize_if_h ⟨warlize_no_h ⟨(trigger_t.with_mhselect 6).mhselect, by decide⟩, h2⟩ =
            warlize_no_h ⟨(trigger_t.with_mhselect 6).mhselect, by decide⟩ ∧
          ∃ i, (trigger_t.with_mhselect 6).interpret_mhselect false = Except.ok i ∧
            ({ trigger_t.with_mhselect 6 with
                mhselect := legalize true ⟨(trigger_t.with_mhselect 6).mhselect, by decide⟩ }
              ).interpret_mhselect false = Except.ok i :=
  ⟨by decide, warlize_no_h_absorbs (trigger_t.with_mhselect 6) (by decide)⟩

/-- C14. A freshly constructed `mcontrol_t` or `mcontrol6_t` is inert:
whatever the indeterminate base members hold, `get_dmode`, `get_chain`,
`get_execute`, `get_store` and `get_load` return false, `get_action` returns
`ACTION_DEBUG_EXCEPTION`, the fields `hit`, `select` and `timing` are false and
the compare operator is `MATCH_EQUAL`. -/
theorem fresh_mcontrol_inert (tdata2 : Nat) (sselect : sselect_t)
    (svalue sbytemask mhselect mhvalue : Nat) :
    ((trigger_variant.mcontrol
          (mcontrol_t.construct tdata2 sselect svalue sbytemask mhselect mhvalue)).get_dmode = false ∧
        (trigger_variant.mcontrol
          (mcontrol_t.construct tdata2 sselect svalue sbytemask mhselect mhvalue)).get_chain = false ∧
        (trigger_variant.mcontrol
          (mcontrol_t.construct tdata2 sselect svalue sbytemask mhselect mhvalue)).get_execute = false ∧
        (trigger_variant.mcontrol
          (mcontrol_t.construct tdata2 sselect svalue sbytemask mhselect mhvalue)).get_store = false ∧
        (trigger_variant.mcontrol
          (mcontrol_t.construct tdata2 sselect svalue sbytemask mhselect mhvalue)).get_load = false ∧
        (trigger_variant.mcontrol
          (mcontrol_t.construct tdata2 sselect svalue sbytemask mhselect mhvalue)).get_action =
            action_t.ACTION_DEBUG_EXCEPTION ∧
        (mcontrol_t.construct tdata2 sselect svalue sbytemask mhselect mhvalue).hit = false ∧
        (mcontrol_t.construct tdata2 sselect svalue sbytemask mhselect mhvalue).select = false ∧
        (mcontrol_t.construct tdata2 sselect svalue sbytemask mhselect mhvalue).timing = false ∧
        (mcontrol_t.construct tdata2 sselect svalue sbytemask mhselect mhvalue).match_ =
          match_t.MATCH_EQUAL) ∧
      ((trigger_variant.mcontrol6
          (mcontrol6_t.construct tdata2 sselect svalue sbytemask mhselect mhvalue)).get_dmode = false ∧
        (trigger_variant.mcontrol6
          (mcontrol6_t.construct tdata2 sselect svalue sbytemask mhselect mhvalue)).get_chain = false ∧
        (trigger_variant.mcontrol6
          (mcontrol6_t.construct tdata2 sselect svalue sbytemask mhselect mhvalue)).get_execute = false ∧
        (trigger_variant.mcontrol6
          (mcontrol6_t.construct tdata2 sselect svalue sbytemask mhselect mhvalue)).get_store = false ∧
        (trigger_variant.mcontrol6
          (mcontrol6_t.construct tdata2 sselect svalue sbytemask mhselect mhvalue)).get_load = false ∧
        (trigger_variant.mcontrol6
          (mcontrol6_t.construct tdata2 sselect svalue sbytemask mhselect mhvalue)).get_action =
            action_t.ACTION_DEBUG_EXCEPTION ∧
        (mcontrol6_t.construct tdata2 sselect svalue sbytemask mhselect mhvalue).hit = false ∧
        (mcontrol6_t.construct tdata2 sselect svalue sbytemask mhselect mhvalue).select = false ∧
        (mcontrol6_t.construct tdata2 sselect svalue sbytemask mhselect mhvalue).timing = false ∧
        (mcontrol6_t.construct tdata2 sselect svalue sbytemask mhselect mhvalue).match_ =
          match_t.MATCH_EQUAL) :=
  ⟨⟨rfl, rfl, rfl, rfl, rfl, rfl, rfl, rfl, rfl, rfl⟩,
    ⟨rfl, rfl, rfl, rfl, rfl, rfl, rfl, rfl, rfl, rfl⟩⟩

/-- C15. The interpretation table is self-indexed: every present entry of the
table stores its own index as selector, so for a stored selector below 8 and
either hypervisor setting the returned interpretation has the legalized code
as its selector field, and when it is shifted `compare_val` takes the borrowed
bit from that legalized code. -/
theorem table_self_indexed (t : trigger_t) (h_enabled : Bool) (ht : t.mhselect < 8) :
    (∀ (k : Fin 8) (e : mhselect_interpretation), table k = some e → e.mhselect = k.val) ∧
      ∃ i, t.interpret_mhselect h_enabled = Except.ok i ∧
        i.mhselect = legalize h_enabled ⟨t.mhselect, ht⟩ ∧
        (i.shift_mhvalue = some true →
          ∀ v : Nat, i.compare_val v =
            Except.ok ((2 * v + (legalize h_enabled ⟨t.mhselect, ht⟩ >>> 2)) % 2 ^ UNSIGNED_BITS)) := by
  constructor
  · intro k e hk
    have h := table_selector k
    rw [hk] at h
    exact h
  · obtain ⟨i, hi, hcode, hlt, _⟩ := interpret_mhselect_entry t h_enabled ht
    refine ⟨i, hi, hcode, fun hs v => ?_⟩
    rw [compare_val_shifted i v hs hlt, hcode]
    rfl

/-- Witness of C15 at the stored selector 3 without hypervisor support. -/
theorem table_self_indexed_witness :
    (trigger_t.with_mhselect 3).mhselect < 8 ∧
      (∀ (k : Fin 8) (e : mhselect_interpretation), table k = some e → e.mhselect = k.val) ∧
      ∃ i, (trigger_t.with_mhselect 3).interpret_mhselect false = Except.ok i ∧
        i.mhselect = legalize false ⟨(trigger_t.with_mhselect 3).mhselect, by decide⟩ ∧
        (i.shift_mhvalue = some true →
          ∀ v : Nat, i.compare_val v =
            Except.ok ((2 * v +
              (legalize false ⟨(trigger_t.with_mhselect 3).mhselect, by decide⟩ >>> 2)) %
                2 ^ UNSIGNED_BITS)) :=
  ⟨by decide, table_self_indexed (trigger_t.with_mhselect 3) false (by decide)⟩

end triggers
